import Mathlib

/-!
Shallow embedding of the CSV import pipeline of the economic-api repository.

The embedded code is `scripts/import_budget_mapping.py` (the batch pipeline:
number parsing, budget-file melting, description filtering, mapping lookup,
deduplication and the discovery abort check) together with the budget branch
of `process_csv_file` / `trigger_sharepoint_sync` in `sync_api.py` (the HTTP
service's re-implementation of the same pipeline).

Conventions of the embedding:
* a pandas `NaN` cell is `none`, a string cell is `some s`;
* Python `float` values are modelled as `Rat` (every value produced by the
  parser on the inputs considered is an exact decimal);
* a Python exception that escapes a function is `PyResult.raised`, a caught
  `ValueError` that the code converts to `None` stays inside `Option`;
* each per-file `try/except` of the script is modelled by mapping
  `PyResult.raised` to an empty contribution for that file.
-/

namespace EconomicApi

/-- ASCII lower-casing, the behaviour of `re.IGNORECASE` on the ASCII
patterns used by the scripts. -/
def lowerChar (c : Char) : Char :=
  if 'A' ≤ c ∧ c ≤ 'Z' then Char.ofNat (c.toNat + 32) else c

/-- Python `str.strip()` restricted to ASCII whitespace. -/
def isSpaceChar (c : Char) : Bool :=
  c = ' ' ∨ c = '\t' ∨ c = '\n' ∨ c = '\r'

def stripStr (l : List Char) : List Char :=
  ((l.dropWhile isSpaceChar).reverse.dropWhile isSpaceChar).reverse

/-- Characters kept by the cleaning regex `re.sub(r'[^\d,.\-]', '', …)`. -/
def keepChar (c : Char) : Bool :=
  c.isDigit || c = ',' || c = '.' || c = '-'

/-- `str.strip()` followed by removal of every character that is not a digit,
comma, period or minus (the strip is subsumed by the removal). -/
def cleanChars (l : List Char) : List Char :=
  l.filter keepChar

/-- Result of running a piece of Python code: either a value, or an uncaught
exception escaping the enclosing function. -/
inductive PyResult (α : Type) where
  | ok : α → PyResult α
  | raised : PyResult α
deriving DecidableEq, Repr

/-- Value of a (possibly empty) list of decimal digit characters. -/
def digitsToNat (l : List Char) : Nat :=
  l.foldl (fun a c => a * 10 + (c.toNat - 48)) 0

/-- Python `str.split(sep)` for a single-character separator: splits on every
occurrence and keeps empty parts. -/
def splitOnChar (sep : Char) : List Char → List (List Char)
  | [] => [[]]
  | c :: t =>
    if c = sep then [] :: splitOnChar sep t
    else
      match splitOnChar sep t with
      | [] => [[c]]
      | h :: r => (c :: h) :: r

/-- Python `int(s)` on the alphabet `{digits, ',', '.', '-'}`: an optional
leading minus followed by at least one digit, otherwise a `ValueError`
(modelled as `none`). -/
def pyInt (l : List Char) : Option Int :=
  if l.head? = some '-' then
    if l.tail ≠ [] ∧ l.tail.all Char.isDigit then
      some (-(digitsToNat l.tail : Int))
    else none
  else if l ≠ [] ∧ l.all Char.isDigit then some ((digitsToNat l : Int)) else none

/-- Python `float(s)` on the alphabet `{digits, '.', '-'}` (all strings the
parser hands to `float` are comma-free): an optional leading minus, then
digits with at most one period and at least one digit; any other shape
raises `ValueError`, which the caller catches (modelled as `none`). -/
def pyFloat (l : List Char) : Option Rat :=
  let r := if l.head? = some '-' then l.tail else l
  if r ≠ [] ∧ r.all (fun c => c.isDigit || c = '.') ∧ r.count '.' ≤ 1 ∧
      r.any Char.isDigit then
    let v : Rat :=
      match splitOnChar '.' r with
      | [i, f] => (digitsToNat i : Rat) + (digitsToNat f : Rat) / 10 ^ f.length
      | _ => (digitsToNat r : Rat)
    some (if l.head? = some '-' then -v else v)
  else none

/-- The period-only branch of `parse_european_number` (lines 295-309 of
`import_budget_mapping.py`).  It returns the transformed character list, or
`PyResult.raised` when the Python code raises an uncaught `ValueError` from
one of the two `int(…)` calls inside the branch condition.  The tests are
evaluated in the source's short-circuit order. -/
def periodOnlyBranch (l : List Char) : PyResult (List Char) :=
  if l.count '.' = 1 then
    match splitOnChar '.' l with
    | [p0, p1] =>
      if p0.length ≤ 2 ∧ p1.length = 1 then
        match pyInt p1 with
        | none => .raised
        | some d1 =>
          if d1 ≠ 0 then
            match pyInt p0 with
            | none => .raised
            | some d0 =>
              if d0 ≤ 99 then .ok l else .ok (l.filter (· ≠ '.'))
          else .ok (l.filter (· ≠ '.'))
      else .ok (l.filter (· ≠ '.'))
    | _ => .ok (l.filter (· ≠ '.'))
  else .ok (l.filter (· ≠ '.'))

/-- The comma-only branch: a single comma followed by at most two characters
becomes a decimal point, otherwise every comma is stripped. -/
def commaOnlyBranch (l : List Char) : List Char :=
  if l.count ',' = 1 then
    match splitOnChar ',' l with
    | [_, p1] =>
      if p1.length ≤ 2 then l.map (fun c => if c = ',' then '.' else c)
      else l.filter (· ≠ ',')
    | _ => l.filter (· ≠ ',')
  else l.filter (· ≠ ',')

/-- Index of the last occurrence of `c` in `l`, counted from the end
(`0` = last position).  For two characters both present in `l`,
Python's `l.rfind(a) > l.rfind(b)` is `lastPosFromEnd a l < lastPosFromEnd b l`. -/
def lastPosFromEnd (c : Char) (l : List Char) : Nat :=
  l.reverse.indexOf c

/-- The branch taken when both a comma and a period are present: the
separator occurring later is the decimal point. -/
def bothBranch (l : List Char) : List Char :=
  if lastPosFromEnd ',' l < lastPosFromEnd '.' l then
    (l.filter (· ≠ '.')).map (fun c => if c = ',' then '.' else c)
  else l.filter (· ≠ ',')

/-- `parse_european_number` of `import_budget_mapping.py` (lines 267-314).
`none` input models a `NaN` cell.  The result is `.raised` exactly when the
Python function raises an uncaught exception, `.ok none` when it returns
`None`, and `.ok (some q)` when it returns the float `q`. -/
def parse_european_number (value : Option String) : PyResult (Option Rat) :=
  match value with
  | none => .ok none
  | some s =>
    if s.toList = [] then .ok none
    else
      let l := cleanChars s.toList
      if l = [] ∨ l = ['-'] then .ok none
      else if ',' ∈ l ∧ '.' ∈ l then .ok (pyFloat (bothBranch l))
      else if ',' ∈ l then .ok (pyFloat (commaOnlyBranch l))
      else if '.' ∈ l then
        match periodOnlyBranch l with
        | .raised => .raised
        | .ok l2 => .ok (pyFloat l2)
      else .ok (pyFloat l)

example : parse_european_number (some "1.740") = .ok (some 1740) := by decide
example : parse_european_number (some "19.428") = .ok (some 19428) := by decide
example : parse_european_number (some ".5") = .raised := by decide
example : parse_european_number (some "-") = .ok none := by decide
example : parse_european_number none = .ok none := by decide
example : parse_european_number (some "kr. 5") = .raised := by decide

example : parse_european_number (some "1,5") = .ok (some (3 / 2)) := by
  have h : parse_european_number (some "1,5") =
      .ok (some ((digitsToNat ['1'] : Rat) +
        (digitsToNat ['5'] : Rat) / 10 ^ (['5'] : List Char).length)) := rfl
  rw [h, show digitsToNat ['1'] = 1 from rfl, show digitsToNat ['5'] = 5 from rfl]
  norm_num

example : parse_european_number (some "12.7") = .ok (some (127 / 10)) := by
  have h : parse_european_number (some "12.7") =
      .ok (some ((digitsToNat ['1', '2'] : Rat) +
        (digitsToNat ['7'] : Rat) / 10 ^ (['7'] : List Char).length)) := rfl
  rw [h, show digitsToNat ['1', '2'] = 12 from rfl,
    show digitsToNat ['7'] = 7 from rfl]
  norm_num

/-- `true` iff `pat` occurs as a contiguous subsequence of `l`
(Python `pat in s` / an unanchored `re.search` of a literal pattern). -/
def containsSeq (pat : List Char) : List Char → Bool
  | [] => pat.isPrefixOf ([] : List Char)
  | c :: t => pat.isPrefixOf (c :: t) || containsSeq pat t

/-- `re.search` of the pattern `p1 ++ ".*" ++ p2` (unanchored): some
occurrence of `p1` is followed, at or after its end, by an occurrence
of `p2`. -/
def matchGap (p1 p2 : List Char) : List Char → Bool
  | [] => p1.isPrefixOf ([] : List Char) && containsSeq p2 (([] : List Char).drop p1.length)
  | c :: t =>
    (p1.isPrefixOf (c :: t) && containsSeq p2 ((c :: t).drop p1.length)) ||
      matchGap p1 p2 t

/-- Lower-cased character list of a string, the shape on which the
case-insensitive regexes are modelled. -/
def lowered (s : String) : List Char :=
  s.toList.map lowerChar

/-- The budget description filter of `import_budget_mapping.py` (lines
321-325): `str.contains` with the case-insensitive pattern
`^TOTAL|^COMMENT|STATEMENT \(.*dkk\)|^BALANCE SHEET \(.*dkk\)|^INCOME
STATEMENT \(.*dkk\)|^CASH-FLOW STATEMENT \(.*dkk\)|^$`.  A row is dropped
exactly when this returns `true`.  (`^$` matches only the empty string, or a
lone newline, under `re.search` without `re.M`.) -/
def budgetFilterHit (desc : String) : Bool :=
  let l := lowered desc
  ("total".toList.isPrefixOf l) ||
  ("comment".toList.isPrefixOf l) ||
  matchGap "statement (".toList "dkk)".toList l ||
  ("balance sheet (".toList.isPrefixOf l &&
    containsSeq "dkk)".toList (l.drop "balance sheet (".toList.length)) ||
  ("income statement (".toList.isPrefixOf l &&
    containsSeq "dkk)".toList (l.drop "income statement (".toList.length)) ||
  ("cash-flow statement (".toList.isPrefixOf l &&
    containsSeq "dkk)".toList (l.drop "cash-flow statement (".toList.length)) ||
  (l = [] || l = ['\n'])

example : budgetFilterHit "TOTAL" = true := by decide
example : budgetFilterHit "tOtAl" = true := by decide
example : budgetFilterHit "Total Lease Income" = true := by decide
example : budgetFilterHit "Net cash flow" = false := by decide
example : budgetFilterHit "Change in working capital" = false := by decide
example : budgetFilterHit "INCOME STATEMENT (2024 dkk)" = true := by decide
example : budgetFilterHit "CASH-FLOW STATEMENT (2024 dkk)" = true := by decide
example : budgetFilterHit "" = true := by decide

/-- The budget description filter of `sync_api.py` (lines 2567-2571):
`str.contains` with the case-insensitive pattern
`TOTAL|COMMENT|STATEMENT|BALANCE|CASH|^$` — every alternative unanchored. -/
def apiFilterHit (desc : String) : Bool :=
  let l := lowered desc
  containsSeq "total".toList l ||
  containsSeq "comment".toList l ||
  containsSeq "statement".toList l ||
  containsSeq "balance".toList l ||
  containsSeq "cash".toList l ||
  (l = [] || l = ['\n'])

example : apiFilterHit "Net cash flow" = true := by decide

/-- `true` iff the column header matches `re.search(r"primo", c, re.I)`. -/
def colHasPrimo (c : String) : Bool :=
  containsSeq "primo".toList (lowered c)

/-- Month-column selection of `import_budget_mapping.py` (lines 241-251):
if some header contains "primo" (case-insensitively), take the 12 columns
after the first such header; otherwise take columns 2-13 (`cols[1:13]`).
The search over `" ".join(cols)` succeeds exactly when some single column
matches, since the pattern contains no space. -/
def month_cols (cols : List String) : List String :=
  match cols.findIdx? colHasPrimo with
  | some i => (cols.drop (i + 1)).take 12
  | none => (cols.drop 1).take 12

/-- Month number assigned to a melted row taken from column `c`:
`month_cols.index(c) + 1` (line 261). -/
def meltMonth (mcols : List String) (c : String) : Nat :=
  mcols.indexOf c + 1

/-- Month-column selection of `sync_api.py` (lines 2530-2536), which
duplicates the script's logic verbatim. -/
def api_month_cols (cols : List String) : List String :=
  match cols.findIdx? colHasPrimo with
  | some i => (cols.drop (i + 1)).take 12
  | none => (cols.drop 1).take 12

example :
    month_cols ["mapping_description", "Primo", "a", "b", "c", "d", "e", "f",
      "g", "h", "i", "j", "k", "l", "Ultimo"] =
    ["a", "b", "c", "d", "e", "f", "g", "h", "i", "j", "k", "l"] := by decide
example :
    month_cols ["mapping_description", "Jan", "Feb", "Mar", "Apr", "May",
      "Jun", "Jul", "Aug", "Sep", "Oct", "Nov", "Dec", "Extra"] =
    ["Jan", "Feb", "Mar", "Apr", "May", "Jun", "Jul", "Aug", "Sep", "Oct",
      "Nov", "Dec"] := by decide
example : meltMonth ["Jan", "Feb", "Mar"] "Jan" = 1 := by decide
example : meltMonth ["Jan", "Feb", "Mar"] "Mar" = 3 := by decide

/-- `str(cell)` / `astype(str)` on a cell: a pandas `NaN` prints as "nan". -/
def pyStrCell (d : Option String) : String :=
  match d with
  | none => "nan"
  | some s => s

/-- A row of the reloaded `account_mapping` lookup table (line 213).  In the
table `account_number`, `agreement_number` and `AccountKey` are `NOT NULL`
strings; the description and categories are nullable. -/
structure LookupRow where
  account_number : String
  agreement_number : String
  mapping_description : Option String
  category : Option String
  sub_category : Option String
  AccountKey : String
deriving DecidableEq, Repr

/-- One budget CSV after `read_csv(sep=";", header=2, dtype=str)` and the
rename of column 0 to `mapping_description`, together with the year and
agreement number extracted from the filename.  Each row is the list of its
cells, positionally aligned with `cols`. -/
structure BudgetFile where
  year : Int
  agreement : String
  cols : List String
  rows : List (List (Option String))
deriving DecidableEq, Repr

/-- One melted row: `(mapping_description, month, raw amount cell)`. -/
structure MeltRow where
  mapping_description : Option String
  month : Nat
  amountRaw : Option String
deriving DecidableEq, Repr

/-- A melted row after the amount has been parsed successfully. -/
structure ParsedRow where
  mapping_description : Option String
  month : Nat
  amount : Rat
deriving DecidableEq, Repr

/-- A row of the final `budget` table. -/
structure BudRow where
  account_number : Option String
  mapping_description : Option String
  category : Option String
  sub_category : Option String
  year : Int
  month : Nat
  amount : Rat
  agreement_number : String
  AccountKey : Option String
deriving DecidableEq, Repr

/-- `raw.dropna(how="all")` (line 239): keep a row iff some cell is
non-`NaN`. -/
def keptRows (f : BudgetFile) : List (List (Option String)) :=
  f.rows.filter (fun r => r.any (fun c => c.isSome))

/-- Cell of row `r` in the column named `c` (column names are unique after
`read_csv` mangling, so name lookup is positional lookup). -/
def cellAt (cols : List String) (r : List (Option String)) (c : String) :
    Option String :=
  r.getD (cols.indexOf c) none

/-- `raw.melt(id_vars=["mapping_description"], value_vars=month_cols, …)`
followed by the positional month assignment (lines 253-261): one output row
per (month column, kept row), stacked column-by-column as pandas does. -/
def meltFile (f : BudgetFile) : List MeltRow :=
  (month_cols f.cols).flatMap (fun c =>
    (keptRows f).map (fun r =>
      { mapping_description := r.getD 0 none,
        month := meltMonth (month_cols f.cols) c,
        amountRaw := cellAt f.cols r c }))

/-- `df["amount"].apply(parse_european_number)` raises iff the parse raises
on some melted cell; pandas `apply` propagates the exception out of the
per-file body. -/
def amountsRaise (f : BudgetFile) : Bool :=
  (meltFile f).any (fun m => parse_european_number m.amountRaw = .raised)

/-- Melted rows with a successfully parsed, non-null amount
(`apply(parse_european_number)` then `dropna(subset=["amount"])`). -/
def parsedRows (f : BudgetFile) : List ParsedRow :=
  (meltFile f).filterMap (fun m =>
    match parse_european_number m.amountRaw with
    | .ok (some q) =>
      some { mapping_description := m.mapping_description, month := m.month,
             amount := q }
    | _ => none)

/-- The description filter (lines 321-325): keep rows whose stringified
description does not hit the banner pattern. -/
def filteredRows (f : BudgetFile) : List ParsedRow :=
  (parsedRows f).filter (fun p => !budgetFilterHit (pyStrCell p.mapping_description))

/-- Lookup rows matching a budget row in the left merge on
`(mapping_description, agreement_number)`; a `NaN` description never
matches. -/
def lookupMatches (L : List LookupRow) (agr : String) (d : Option String) :
    List LookupRow :=
  match d with
  | none => []
  | some s =>
    L.filter (fun lr =>
      lr.agreement_number = agr ∧ lr.mapping_description = some s)

/-- `df.merge(lookup, on=["mapping_description", "agreement_number"],
how="left")` for a single left row: one output row per match, or a single
row with `NaN` lookup fields when there is none. -/
def mergeRow (f : BudgetFile) (L : List LookupRow) (p : ParsedRow) :
    List BudRow :=
  match lookupMatches L f.agreement p.mapping_description with
  | [] =>
    [{ account_number := none, mapping_description := p.mapping_description,
       category := none, sub_category := none, year := f.year,
       month := p.month, amount := p.amount, agreement_number := f.agreement,
       AccountKey := none }]
  | ms =>
    ms.map (fun lr =>
      { account_number := some lr.account_number,
        mapping_description := p.mapping_description,
        category := lr.category, sub_category := lr.sub_category,
        year := f.year, month := p.month, amount := p.amount,
        agreement_number := f.agreement, AccountKey := some lr.AccountKey })

/-- The merged DataFrame (lines 330-334). -/
def mergedRows (L : List LookupRow) (f : BudgetFile) : List BudRow :=
  (filteredRows f).flatMap (mergeRow f L)

/-- `df["account_number"].astype(str).replace('None', None)` (line 413). -/
def replaceNoneAcct (d : Option String) : Option String :=
  if pyStrCell d = "None" then none else some (pyStrCell d)

/-- `df["AccountKey"].replace('None', None)` (line 414): only the literal
string "None" is replaced; `NaN` stays `NaN`. -/
def replaceNoneKey (d : Option String) : Option String :=
  match d with
  | none => none
  | some s => if s = "None" then none else some s

def finalizeRow (r : BudRow) : BudRow :=
  { r with account_number := replaceNoneAcct r.account_number,
           AccountKey := replaceNoneKey r.AccountKey }

/-- The whole per-file budget body (lines 225-431).  When any merged row has
no mapping match (`unmatched_count > 0`), line 350 evaluates the undefined
name `budget_file` (the loop variable is `bf`), so the body raises
`NameError` before the section-classification code can run. -/
def process_budget_file (L : List LookupRow) (f : BudgetFile) :
    PyResult (List BudRow) :=
  if amountsRaise f then .raised
  else
    let dfm := mergedRows L f
    if dfm.any (fun r => r.AccountKey.isNone) then .raised
    else .ok (dfm.map finalizeRow)

/-- The per-file `except` handler (lines 432-434) logs the traceback and
appends nothing, so a file whose body raised contributes no rows. -/
def fileContribution (L : List LookupRow) (f : BudgetFile) : List BudRow :=
  match process_budget_file L f with
  | .ok rs => rs
  | .raised => []

/-- pandas `drop_duplicates(subset=key)` with the default `keep="first"`:
keep a row iff its key has not been seen earlier. -/
def dedupOn {α κ : Type} [DecidableEq κ] (key : α → κ) :
    List κ → List α → List α
  | _, [] => []
  | seen, r :: t =>
    if key r ∈ seen then dedupOn key seen t
    else r :: dedupOn key (key r :: seen) t

def drop_duplicates {α κ : Type} [DecidableEq κ] (key : α → κ)
    (l : List α) : List α :=
  dedupOn key [] l

/-- Dedup key of the final budget concat (lines 444-446). -/
def budKey (r : BudRow) : Option String × String × Int × Nat :=
  (r.mapping_description, r.agreement_number, r.year, r.month)

/-- The final `budget` table: concatenation of every file's contribution in
discovery order, deduplicated on
`(mapping_description, agreement_number, year, month)`, first wins. -/
def finalBudgetTable (L : List LookupRow) (files : List BudgetFile) :
    List BudRow :=
  drop_duplicates budKey (files.flatMap (fileContribution L))

/-- A normalized row of one mapping file (lines 142-193). -/
structure MapRow where
  account_number : Option String
  mapping_description : Option String
  category : Option String
  sub_category : Option String
  agreement_number : String
  AccountKey : String
deriving DecidableEq, Repr

/-- One mapping CSV after column selection: each row is the list of the
selected cells `[account, mapping, category?, sub_category?]`, plus the
agreement number extracted from the filename. -/
structure MappingFile where
  agreement : String
  rows : List (List (Option String))
deriving DecidableEq, Repr

/-- Loading of a single selected mapping row: `dropna(how='all')` drops
rows whose every selected cell is `NaN` (line 177); retained rows get
`AccountKey = str(account_number) + "_" + agreement` (line 182), where
`str` of a `NaN` account cell is the literal "nan". -/
def loadMappingRow (agr : String) (cells : List (Option String)) :
    Option MapRow :=
  if cells.all (fun c => c.isNone) then none
  else
    some { account_number := cells.getD 0 none,
           mapping_description := cells.getD 1 none,
           category := cells.getD 2 none,
           sub_category := cells.getD 3 none,
           agreement_number := agr,
           AccountKey := pyStrCell (cells.getD 0 none) ++ "_" ++ agr }

/-- `pd.concat(all_map, ignore_index=True)`: all files' loaded rows in
file-discovery order. -/
def loadedMappingRows (files : List MappingFile) : List MapRow :=
  files.flatMap (fun mf => mf.rows.filterMap (loadMappingRow mf.agreement))

/-- The merged mapping table (lines 201-205):
`concat(all_map).drop_duplicates(subset=["AccountKey"])`, first wins. -/
def map_df (files : List MappingFile) : List MapRow :=
  drop_duplicates (fun r => r.AccountKey) (loadedMappingRows files)

/-- Outcome of the discovery stage. -/
inductive DiscoveryOutcome where
  | abortedSoft
  | proceeds
deriving DecidableEq, Repr

/-- Lines 133-135: `if not mapping_files or not budget_files:
sys.exit(0)` — a soft no-op abort (exit status 0) when either discovered
list is empty; otherwise the run proceeds to the loading stages. -/
def discoveryOutcome (mapping_files budget_files : List String) :
    DiscoveryOutcome :=
  if mapping_files = [] ∨ budget_files = [] then .abortedSoft else .proceeds

/-- ASCII upper-casing, the behaviour of `str.upper()` on ASCII text. -/
def upperChar (c : Char) : Char :=
  if 'a' ≤ c ∧ c ≤ 'z' then Char.ofNat (c.toNat - 32) else c

/-- Section banner indices recorded by lines 354-362 of the (unreachable)
classification block: the loop overwrites, so the last banner row wins. -/
structure SectionMarkers where
  income : Option Nat
  balance : Option Nat
  cashflow : Option Nat
deriving DecidableEq, Repr

def sectionMarkers (rows : List (List (Option String))) : SectionMarkers :=
  rows.enum.foldl (fun acc p =>
    let d := (stripStr (pyStrCell (p.2.getD 0 none)).toList).map upperChar
    if containsSeq "INCOME STATEMENT".toList d then { acc with income := some p.1 }
    else if containsSeq "BALANCE SHEET".toList d then { acc with balance := some p.1 }
    else if containsSeq "CASH-FLOW STATEMENT".toList d then { acc with cashflow := some p.1 }
    else acc)
    { income := none, balance := none, cashflow := none }

def markerAtOrBefore (o : Option Nat) (idx : Nat) : Bool :=
  match o with
  | some k => decide (k ≤ idx)
  | none => false

/-- `get_category_from_position` (lines 365-384): find the first pre-melt
row whose description cell equals the given description, then classify it by
the banner regions in cash-flow / balance / income precedence order. -/
def get_category_from_position (rows : List (List (Option String)))
    (d : Option String) : String :=
  match d with
  | none => "Unknown"
  | some s =>
    match rows.enum.find? (fun p => p.2.getD 0 none = some s) with
    | none => "Unknown"
    | some p =>
      let m := sectionMarkers rows
      if markerAtOrBefore m.cashflow p.1 then "Cash Flow Statement"
      else if markerAtOrBefore m.balance p.1 then "Balance Sheet"
      else if markerAtOrBefore m.income p.1 then "Income Statement"
      else "Unknown"

/-- Amount cleaning of the service's budget path (`sync_api.py` lines
2554-2561): strip every character but digits, comma, period and minus,
replace every comma with a period, then `pd.to_numeric(errors="coerce")`
(a failed parse becomes `NaN`, i.e. `none`, and is dropped). -/
def api_clean_amount (cell : Option String) : Option Rat :=
  pyFloat ((cleanChars (pyStrCell cell).toList).map
    (fun c => if c = ',' then '.' else c))

/-! ### Helper lemmas about the parser on digit strings -/

lemma digit_ne_comma {c : Char} (h : c.isDigit = true) : c ≠ ',' := by
  rintro rfl; exact absurd h (by decide)

lemma digit_ne_dot {c : Char} (h : c.isDigit = true) : c ≠ '.' := by
  rintro rfl; exact absurd h (by decide)

lemma digit_ne_minus {c : Char} (h : c.isDigit = true) : c ≠ '-' := by
  rintro rfl; exact absurd h (by decide)

lemma splitOnChar_of_not_mem {sep : Char} :
    ∀ {l : List Char}, sep ∉ l → splitOnChar sep l = [l] := by
  intro l
  induction l with
  | nil => intro _; rfl
  | cons c t ih =>
    intro h
    have hc : ¬(c = sep) := fun e => h (e ▸ List.mem_cons_self c t)
    have ht : sep ∉ t := fun e => h (List.mem_cons_of_mem c e)
    simp [splitOnChar, hc, ih ht]

lemma splitOnChar_append {sep : Char} {a b : List Char} (h : sep ∉ a) :
    splitOnChar sep (a ++ sep :: b) = a :: splitOnChar sep b := by
  induction a with
  | nil => simp [splitOnChar]
  | cons c t ih =>
    have hc : ¬(c = sep) := fun e => h (e ▸ List.mem_cons_self c t)
    have ht : sep ∉ t := fun e => h (List.mem_cons_of_mem c e)
    rw [List.cons_append, splitOnChar.eq_def]
    simp only [if_neg hc, ih ht]

lemma pyInt_digits {l : List Char} (hne : l ≠ [])
    (hd : ∀ c ∈ l, c.isDigit = true) : pyInt l = some ((digitsToNat l : Int)) := by
  match l, hne with
  | c :: t, _ =>
    have hc : c.isDigit = true := hd c (List.mem_cons_self c t)
    have hm : ¬((c :: t).head? = some '-') := by
      simp only [List.head?]
      intro e
      exact digit_ne_minus hc (by injection e)
    rw [pyInt, if_neg hm,
      if_pos ⟨List.cons_ne_nil c t, List.all_eq_true.mpr (fun x hx => hd x hx)⟩]

lemma pyFloat_digits {l : List Char} (hne : l ≠ [])
    (hd : ∀ c ∈ l, c.isDigit = true) :
    pyFloat l = some ((digitsToNat l : Rat)) := by
  match l, hne with
  | c :: t, _ =>
    have hc : c.isDigit = true := hd c (List.mem_cons_self c t)
    have hm : ¬((c :: t).head? = some '-') := by
      simp only [List.head?]
      intro e
      exact digit_ne_minus hc (by injection e)
    have hdot : '.' ∉ c :: t := fun e => digit_ne_dot (hd '.' e) rfl
    rw [pyFloat]
    simp only [if_neg hm]
    rw [if_pos, splitOnChar_of_not_mem hdot]
    · constructor
      · exact List.cons_ne_nil c t
      refine ⟨List.all_eq_true.mpr (fun x hx => by simp [hd x hx]), ?_, ?_⟩
      · simp [List.count_eq_zero.mpr hdot]
      · exact List.any_eq_true.mpr ⟨c, List.mem_cons_self c t, hc⟩

lemma pyFloat_decimal {a b : List Char} (ha : a ≠ [])
    (hda : ∀ c ∈ a, c.isDigit = true) (hdb : ∀ c ∈ b, c.isDigit = true) :
    pyFloat (a ++ '.' :: b) =
      some ((digitsToNat a : Rat) + (digitsToNat b : Rat) / 10 ^ b.length) := by
  match a, ha with
  | c :: t, _ =>
    have hc : c.isDigit = true := hda c (List.mem_cons_self c t)
    have hm : ¬(((c :: t) ++ '.' :: b).head? = some '-') := by
      simp only [List.cons_append, List.head?]
      intro e
      exact digit_ne_minus hc (by injection e)
    have hdota : '.' ∉ c :: t := fun e => digit_ne_dot (hda '.' e) rfl
    have hdotb : '.' ∉ b := fun e => digit_ne_dot (hdb '.' e) rfl
    have hca : List.count '.' (c :: t) = 0 := List.count_eq_zero.mpr hdota
    have hcb : List.count '.' b = 0 := List.count_eq_zero.mpr hdotb
    rw [pyFloat]
    simp only [if_neg hm]
    rw [if_pos, splitOnChar_append hdota, splitOnChar_of_not_mem hdotb]
    · constructor
      · simp
      refine ⟨?_, ?_, ?_⟩
      · refine List.all_eq_true.mpr (fun x hx => ?_)
        rcases List.mem_append.mp hx with h | h
        · simp [hda x h]
        · rcases List.mem_cons.mp h with h | h
          · simp [h]
          · simp [hdb x h]
      · show List.count '.' ((c :: t) ++ '.' :: b) ≤ 1
        rw [List.count_append, hca, List.count_cons_self, hcb]
      · exact List.any_eq_true.mpr ⟨c, by simp, hc⟩

lemma filter_ne_dot_digits {l : List Char}
    (hd : ∀ c ∈ l, c.isDigit = true) :
    l.filter (fun c => decide (c ≠ '.')) = l :=
  List.filter_eq_self.mpr (fun c hc => by simp [digit_ne_dot (hd c hc)])

lemma periodOnly_eval {a b : List Char} (ha : a ≠ [])
    (hda : ∀ c ∈ a, c.isDigit = true) (hdb : ∀ c ∈ b, c.isDigit = true) :
    periodOnlyBranch (a ++ '.' :: b) =
      .ok (if a.length ≤ 2 ∧ b.length = 1 ∧ digitsToNat b ≠ 0 ∧
            digitsToNat a ≤ 99
        then a ++ '.' :: b else a ++ b) := by
  have hdota : '.' ∉ a := fun e => digit_ne_dot (hda '.' e) rfl
  have hdotb : '.' ∉ b := fun e => digit_ne_dot (hdb '.' e) rfl
  have hca : List.count '.' a = 0 := List.count_eq_zero.mpr hdota
  have hcb : List.count '.' b = 0 := List.count_eq_zero.mpr hdotb
  have hcount : (a ++ '.' :: b).count '.' = 1 := by
    simp [List.count_append, List.count_cons_self, hca, hcb]
  have hfb : List.filter (fun c => decide (c ≠ '.')) b = b :=
    filter_ne_dot_digits hdb
  have hstrip : (a ++ '.' :: b).filter (fun c => decide (c ≠ '.')) = a ++ b := by
    rw [List.filter_append, filter_ne_dot_digits hda, List.filter_cons]
    simp
    intro x hx
    exact digit_ne_dot (hdb x hx)
  have hsplit : splitOnChar '.' (a ++ '.' :: b) = [a, b] := by
    rw [splitOnChar_append hdota, splitOnChar_of_not_mem hdotb]
  rw [periodOnlyBranch, if_pos hcount]
  simp only [hsplit]
  by_cases h1 : a.length ≤ 2 ∧ b.length = 1
  · rw [if_pos h1]
    have hbne : b ≠ [] := by
      rintro rfl; simp at h1
    simp only [pyInt_digits hbne hdb]
    by_cases h2 : digitsToNat b ≠ 0
    · rw [if_pos (by exact_mod_cast h2)]
      simp only [pyInt_digits ha hda]
      by_cases h3 : digitsToNat a ≤ 99
      · rw [if_pos (by exact_mod_cast h3),
          if_pos ⟨h1.1, h1.2, h2, h3⟩]
      · rw [if_neg (by exact_mod_cast h3), hstrip,
          if_neg (fun hC => h3 hC.2.2.2)]
    · rw [if_neg (by simpa using h2), hstrip,
        if_neg (fun hC => h2 hC.2.2.1)]
  · rw [if_neg h1, hstrip, if_neg (fun hC => h1 ⟨hC.1, hC.2.1⟩)]

lemma parse_digits_dot {a b : List Char} (ha : a ≠ [])
    (hda : ∀ c ∈ a, c.isDigit = true) (hdb : ∀ c ∈ b, c.isDigit = true) :
    parse_european_number (some (String.mk (a ++ '.' :: b))) =
      .ok (some (if a.length ≤ 2 ∧ b.length = 1 ∧ digitsToNat b ≠ 0 ∧
            digitsToNat a ≤ 99
        then (digitsToNat a : Rat) + (digitsToNat b : Rat) / 10 ^ b.length
        else (digitsToNat (a ++ b) : Rat))) := by
  have htl : (String.mk (a ++ '.' :: b)).toList = a ++ '.' :: b := rfl
  have hne : ¬(a ++ '.' :: b = []) := by simp
  have hdot : '.' ∈ a ++ '.' :: b := by simp
  have hkeep : cleanChars (a ++ '.' :: b) = a ++ '.' :: b := by
    refine List.filter_eq_self.mpr (fun c hc => ?_)
    rcases List.mem_append.mp hc with h | h
    · simp [keepChar, hda c h]
    · rcases List.mem_cons.mp h with h | h
      · simp [keepChar, h]
      · simp [keepChar, hdb c h]
  have hcomma : ',' ∉ a ++ '.' :: b := by
    intro h
    rcases List.mem_append.mp h with h | h
    · exact digit_ne_comma (hda ',' h) rfl
    · rcases List.mem_cons.mp h with h | h
      · exact absurd h (by decide)
      · exact digit_ne_comma (hdb ',' h) rfl
  have hdash : ¬(a ++ '.' :: b = [] ∨ a ++ '.' :: b = ['-']) := by
    rintro (h | h)
    · exact hne h
    · rw [h] at hdot
      exact absurd hdot (by decide)
  simp only [parse_european_number, htl, hkeep]
  rw [if_neg hne, if_neg hdash, if_neg (fun hc => hcomma hc.1),
    if_neg hcomma, if_pos hdot]
  simp only [periodOnly_eval ha hda hdb]
  by_cases hC : a.length ≤ 2 ∧ b.length = 1 ∧ digitsToNat b ≠ 0 ∧
      digitsToNat a ≤ 99
  · rw [if_pos hC, if_pos hC, pyFloat_decimal ha hda hdb]
  · rw [if_neg hC, if_neg hC,
      pyFloat_digits (by simp [ha]) (fun c hc => by
        rcases List.mem_append.mp hc with h | h
        · exact hda c h
        · exact hdb c h)]

/-! ### Helper lemmas about first-wins deduplication -/

lemma dedupOn_countP_of_mem_seen {α κ : Type} [DecidableEq κ] (key : α → κ)
    (k : κ) :
    ∀ (seen : List κ) (l : List α), k ∈ seen →
      (dedupOn key seen l).countP (fun r => decide (key r = k)) = 0 := by
  intro seen l
  induction l generalizing seen with
  | nil => intro _; rfl
  | cons r t ih =>
    intro hk
    rw [dedupOn]
    by_cases hr : key r ∈ seen
    · rw [if_pos hr]
      exact ih seen hk
    · rw [if_neg hr, List.countP_cons]
      have hne : ¬(key r = k) := fun e => hr (e ▸ hk)
      simp [hne, ih (key r :: seen) (List.mem_cons_of_mem _ hk)]

lemma dedupOn_countP_of_not_seen {α κ : Type} [DecidableEq κ] (key : α → κ)
    (k : κ) :
    ∀ (seen : List κ) (l : List α), k ∉ seen → (∃ r ∈ l, key r = k) →
      (dedupOn key seen l).countP (fun r => decide (key r = k)) = 1 := by
  intro seen l
  induction l generalizing seen with
  | nil =>
    rintro _ ⟨r, hr, _⟩
    exact absurd hr (List.not_mem_nil r)
  | cons r t ih =>
    intro hk hex
    rw [dedupOn]
    by_cases hr : key r = k
    · have hrs : key r ∉ seen := fun h => hk (hr ▸ h)
      rw [if_neg hrs, List.countP_cons,
        dedupOn_countP_of_mem_seen key k (key r :: seen) t
          (hr ▸ List.mem_cons_self _ _)]
      simp [hr]
    · have hex2 : ∃ x ∈ t, key x = k := by
        rcases hex with ⟨x, hx, hkey⟩
        rcases List.mem_cons.mp hx with rfl | hx2
        · exact absurd hkey hr
        · exact ⟨x, hx2, hkey⟩
      by_cases hrs : key r ∈ seen
      · rw [if_pos hrs]
        exact ih seen hk hex2
      · rw [if_neg hrs, List.countP_cons]
        have hk2 : k ∉ key r :: seen := by
          intro h
          rcases List.mem_cons.mp h with h | h
          · exact hr h.symm
          · exact hk h
        simp [hr, ih (key r :: seen) hk2 hex2]

lemma dedupOn_find_eq {α κ : Type} [DecidableEq κ] (key : α → κ) (k : κ) :
    ∀ (seen : List κ) (l : List α), k ∉ seen →
      (dedupOn key seen l).find? (fun r => decide (key r = k)) =
        l.find? (fun r => decide (key r = k)) := by
  intro seen l
  induction l generalizing seen with
  | nil => intro _; rfl
  | cons r t ih =>
    intro hk
    rw [dedupOn]
    by_cases hr : key r = k
    · have hrs : key r ∉ seen := fun h => hk (hr ▸ h)
      rw [if_neg hrs, List.find?_cons_of_pos _ (by simp [hr]),
        List.find?_cons_of_pos _ (by simp [hr])]
    · by_cases hrs : key r ∈ seen
      · rw [if_pos hrs, ih seen hk, List.find?_cons_of_neg _ (by simp [hr])]
      · have hk2 : k ∉ key r :: seen := by
          intro h
          rcases List.mem_cons.mp h with h | h
          · exact hr h.symm
          · exact hk h
        rw [if_neg hrs, List.find?_cons_of_neg _ (by simp [hr]),
          List.find?_cons_of_neg _ (by simp [hr]), ih (key r :: seen) hk2]

/-! ### Helper lemma: a file with an unmatched merged row contributes
nothing (the `NameError` at line 350 aborts its whole body) -/

lemma fileContribution_eq_nil {L : List LookupRow} {f : BudgetFile}
    (h : ∃ r ∈ mergedRows L f, r.AccountKey = none) :
    fileContribution L f = [] := by
  rcases h with ⟨r, hr, hak⟩
  have hany : (mergedRows L f).any (fun r => r.AccountKey.isNone) = true :=
    List.any_eq_true.mpr ⟨r, hr, by simp [hak]⟩
  cases hA : amountsRaise f with
  | true => simp [fileContribution, process_budget_file, hA]
  | false => simp [fileContribution, process_budget_file, hA, hany]

/-! ### Concrete instances used to exercise the pipeline -/

/-- A one-row mapping lookup: account 100 / agreement 1001 is "Rent". -/
def rentLookup : List LookupRow :=
  [{ account_number := "100", agreement_number := "1001",
     mapping_description := some "Rent", category := some "Income",
     sub_category := some "Lease", AccountKey := "100_1001" }]

/-- A budget file whose Cash-Flow section contains a line item
("Change in working capital") with no account mapping. -/
def cashFlowFile : BudgetFile :=
  { year := 2024, agreement := "1001",
    cols := ["mapping_description", "January"],
    rows := [
      [some "INCOME STATEMENT (2024 dkk)", none],
      [some "Rent", some "1.700"],
      [some "CASH-FLOW STATEMENT (2024 dkk)", none],
      [some "Change in working capital", some "2.500"]] }

/-- A budget file whose Income-Statement section contains a line item
("Mystery fee") with no account mapping and no Cash-Flow section. -/
def incomeOnlyFile : BudgetFile :=
  { year := 2024, agreement := "1001",
    cols := ["mapping_description", "January"],
    rows := [
      [some "INCOME STATEMENT (2024 dkk)", none],
      [some "Mystery fee", some "5"]] }

/-- The single merged row `incomeOnlyFile` produces against `rentLookup`. -/
def mysteryRow : BudRow :=
  { account_number := none, mapping_description := some "Mystery fee",
    category := none, sub_category := none, year := 2024, month := 1,
    amount := 5, agreement_number := "1001", AccountKey := none }

/-- Two mapping files that share agreement 5 and account 100 but disagree
on the description. -/
def mapFileA : MappingFile :=
  { agreement := "5", rows := [[some "100", some "Rent"]] }

def mapFileB : MappingFile :=
  { agreement := "5", rows := [[some "100", some "Tax"]] }

/-- The loaded row of `mapFileA` / `mapFileB`. -/
def rowRent : MapRow :=
  { account_number := some "100", mapping_description := some "Rent",
    category := none, sub_category := none, agreement_number := "5",
    AccountKey := "100_5" }

def rowTax : MapRow :=
  { account_number := some "100", mapping_description := some "Tax",
    category := none, sub_category := none, agreement_number := "5",
    AccountKey := "100_5" }

/-- A mapping file with two rows whose account-number cell is empty. -/
def mapFileNan : MappingFile :=
  { agreement := "7", rows := [[none, some "Misc"], [none, some "Other"]] }

/-- Twelve distinct month columns after a Primo column. -/
def primoCols : List String :=
  ["mapping_description", "Primo", "A", "B", "C", "D", "E", "F", "G", "H",
   "I", "J", "K", "L"]

example :
    get_category_from_position cashFlowFile.rows
      (some "Change in working capital") = "Cash Flow Statement" := by decide
example :
    get_category_from_position incomeOnlyFile.rows (some "Mystery fee") =
      "Income Statement" := by decide
example : process_budget_file rentLookup cashFlowFile = .raised := by decide
example : fileContribution rentLookup cashFlowFile = [] := by decide
example : fileContribution rentLookup incomeOnlyFile = [] := by decide
example : mysteryRow ∈ mergedRows rentLookup incomeOnlyFile := by decide
example : loadedMappingRows [mapFileA, mapFileB] = [rowRent, rowTax] := by
  decide
example : map_df [mapFileA, mapFileB] = [rowRent] := by decide
example : List.findIdx? colHasPrimo primoCols = some 1 := by decide

/-! ### Claim theorems -/

/-- C1: the claim says an unmatched melted row lying in the Cash-Flow banner
region is kept with null account fields and sub_category "Cash Flow".  The
code instead evaluates the undefined name `budget_file` (line 350) as soon
as any unmatched row exists, so the whole file is dropped by the per-file
handler: on a concrete file whose Cash-Flow section has an unmatched row,
the body raises and neither that row nor any other row of the file reaches
the final budget table. -/
theorem c1_cash_flow_row_dropped_by_name_error :
    get_category_from_position cashFlowFile.rows
        (some "Change in working capital") = "Cash Flow Statement" ∧
    (mergedRows rentLookup cashFlowFile).any
        (fun r => r.AccountKey.isNone) = true ∧
    process_budget_file rentLookup cashFlowFile = .raised ∧
    fileContribution rentLookup cashFlowFile = [] ∧
    finalBudgetTable rentLookup [cashFlowFile] = [] := by
  decide

/-- C2 (amended): the structural-row filter is anchored at the start of the
string but matches a prefix, not the whole description: every description
beginning with "TOTAL" (any case) is excluded — so "TOTAL" itself is
excluded, and "Total Lease Income" is excluded as well, contrary to the
original claim. -/
theorem c2_total_filter_is_prefix_anchored :
    (∀ s : String,
      "total".toList.isPrefixOf (lowered s) = true → budgetFilterHit s = true) ∧
    budgetFilterHit "TOTAL" = true ∧
    budgetFilterHit "tOtAl" = true ∧
    budgetFilterHit "Total Lease Income" = true := by
  refine ⟨fun s h => ?_, by decide, by decide, by decide⟩
  simp only [budgetFilterHit, Bool.or_eq_true]
  tauto

/-- C2 witness: the prefix rule applied to a concrete non-"TOTAL"
description. -/
theorem c2_total_filter_is_prefix_anchored_witness :
    "total".toList.isPrefixOf (lowered "TOTAL expenses") = true ∧
    budgetFilterHit "TOTAL expenses" = true :=
  ⟨by decide, c2_total_filter_is_prefix_anchored.1 "TOTAL expenses" (by decide)⟩

/-- C2 counterexample: the claim asserts "Total Lease Income" is NOT
excluded by the filter, but `str.contains` with the `^TOTAL` alternative
matches any description that starts with "total" case-insensitively, so the
row is excluded. -/
theorem c2_counterexample_total_lease_income :
    budgetFilterHit "Total Lease Income" = true := by decide

/-- C3: the claim says the parser is total and never raises.  The code's
`try/except` only guards the final `float(...)` call; the two `int(...)`
calls inside the period-only branch condition are unguarded, and on the
inputs ".5" (and "kr. 5", which cleans to ".5") `int('')` raises an
uncaught `ValueError`. -/
theorem c3_parser_raises_on_leading_dot :
    parse_european_number (some ".5") = .raised ∧
    parse_european_number (some "kr. 5") = .raised := by decide

/-- C4: a melted row that has no mapping match (in particular one outside
the Cash-Flow banner region) is never present in the final budget table:
its presence makes the whole file raise at line 350, so the file
contributes nothing, and the final table is unchanged by the file's
presence. -/
theorem c4_unmatched_row_never_in_final_table :
    ∀ (L : List LookupRow) (f : BudgetFile) (r : BudRow),
      r ∈ mergedRows L f → r.AccountKey = none →
      get_category_from_position f.rows r.mapping_description ≠
        "Cash Flow Statement" →
      fileContribution L f = [] ∧
      ∀ (files₁ files₂ : List BudgetFile),
        finalBudgetTable L (files₁ ++ f :: files₂) =
          finalBudgetTable L (files₁ ++ files₂) := by
  intro L f r hr hak _
  have hnil : fileContribution L f = [] := fileContribution_eq_nil ⟨r, hr, hak⟩
  refine ⟨hnil, fun files₁ files₂ => ?_⟩
  unfold finalBudgetTable
  rw [List.flatMap_append, List.flatMap_cons, hnil, List.flatMap_append]
  simp

/-- C4 witness: the unmatched Income-Statement row "Mystery fee" of
`incomeOnlyFile` empties the file's contribution. -/
theorem c4_unmatched_row_never_in_final_table_witness :
    fileContribution rentLookup incomeOnlyFile = [] ∧
    finalBudgetTable rentLookup ([cashFlowFile] ++ incomeOnlyFile :: []) =
      finalBudgetTable rentLookup ([cashFlowFile] ++ []) :=
  have h := c4_unmatched_row_never_in_final_table rentLookup incomeOnlyFile
    mysteryRow (by decide) (by decide) (by decide)
  ⟨h.1, h.2 [cashFlowFile] []⟩

/-- C5: in the period-only branch the period stays a decimal point exactly
when there is one period, at most 2 digits precede it, exactly 1 nonzero
digit follows it, and the leading number is at most 99; otherwise every
period is stripped as a thousands separator.  Concretely "1.740" parses to
1740, "1,5" to 1.5, "19.428" to 19428 and "12.7" to 12.7. -/
theorem c5_period_only_decimal_rule :
    (∀ a b : List Char, a ≠ [] →
      (∀ c ∈ a, c.isDigit = true) → (∀ c ∈ b, c.isDigit = true) →
      parse_european_number (some (String.mk (a ++ '.' :: b))) =
        .ok (some (if a.length ≤ 2 ∧ b.length = 1 ∧ digitsToNat b ≠ 0 ∧
              digitsToNat a ≤ 99
          then (digitsToNat a : Rat) + (digitsToNat b : Rat) / 10 ^ b.length
          else (digitsToNat (a ++ b) : Rat)))) ∧
    parse_european_number (some "1.740") = .ok (some 1740) ∧
    parse_european_number (some "1,5") = .ok (some (3 / 2)) ∧
    parse_european_number (some "19.428") = .ok (some 19428) ∧
    parse_european_number (some "12.7") = .ok (some (127 / 10)) := by
  refine ⟨fun a b ha hda hdb => parse_digits_dot ha hda hdb,
    by decide, ?_, by decide, ?_⟩
  · have h : parse_european_number (some "1,5") =
        .ok (some ((digitsToNat ['1'] : Rat) +
          (digitsToNat ['5'] : Rat) / 10 ^ (['5'] : List Char).length)) := rfl
    rw [h, show digitsToNat ['1'] = 1 from rfl,
      show digitsToNat ['5'] = 5 from rfl]
    norm_num
  · have h : parse_european_number (some "12.7") =
        .ok (some ((digitsToNat ['1', '2'] : Rat) +
          (digitsToNat ['7'] : Rat) / 10 ^ (['7'] : List Char).length)) := rfl
    rw [h, show digitsToNat ['1', '2'] = 12 from rfl,
      show digitsToNat ['7'] = 7 from rfl]
    norm_num

/-- C5 witness: the general rule applied to "1.740" (one digit before the
period, three after, so the period is stripped). -/
theorem c5_period_only_decimal_rule_witness :
    parse_european_number
        (some (String.mk (['1'] ++ '.' :: ['7', '4', '0']))) =
      .ok (some (if (['1'] : List Char).length ≤ 2 ∧
            (['7', '4', '0'] : List Char).length = 1 ∧
            digitsToNat ['7', '4', '0'] ≠ 0 ∧ digitsToNat ['1'] ≤ 99
        then (digitsToNat ['1'] : Rat) +
          (digitsToNat ['7', '4', '0'] : Rat) /
            10 ^ (['7', '4', '0'] : List Char).length
        else (digitsToNat (['1'] ++ ['7', '4', '0']) : Rat))) :=
  c5_period_only_decimal_rule.1 ['1'] ['7', '4', '0'] (by decide) (by decide)
    (by decide)

/-- C6: month columns are located purely positionally (the 12 columns after
the first "Primo" header, else columns 2-13), and a melted row from the
k-th window column gets month k: with distinct window headers the k-th
column is assigned k (1-based), and the first window column always gets
month 1 whatever its literal name. -/
theorem c6_positional_month_assignment :
    (∀ (cols : List String) (i : Nat),
      cols.findIdx? colHasPrimo = some i →
      month_cols cols = (cols.drop (i + 1)).take 12) ∧
    (∀ cols : List String,
      cols.findIdx? colHasPrimo = none →
      month_cols cols = (cols.drop 1).take 12) ∧
    (∀ (cols : List String) (k : Nat) (hk : k < (month_cols cols).length),
      (month_cols cols).Nodup →
      meltMonth (month_cols cols) ((month_cols cols).get ⟨k, hk⟩) = k + 1) ∧
    (∀ (c : String) (rest : List String), meltMonth (c :: rest) c = 1) := by
  refine ⟨fun cols i h => by simp [month_cols, h],
    fun cols h => by simp [month_cols, h],
    fun cols k hk hnd => ?_, fun c rest => ?_⟩
  · unfold meltMonth
    rw [List.get_eq_getElem, List.indexOf_getElem hnd k hk]
  · unfold meltMonth
    rw [List.indexOf_cons_self]

/-- C6 witness: with a Primo column at index 1 the window is the 12 columns
after it, and its third column gets month 3 while its first gets month 1. -/
theorem c6_positional_month_assignment_witness :
    month_cols primoCols = (primoCols.drop 2).take 12 ∧
    meltMonth (month_cols primoCols) "C" = 3 ∧
    meltMonth ("A" :: ["B", "C"]) "A" = 1 :=
  ⟨c6_positional_month_assignment.1 primoCols 1 (by decide),
   c6_positional_month_assignment.2.2.1 primoCols 2 (by decide) (by decide),
   c6_positional_month_assignment.2.2.2 "A" ["B", "C"]⟩

/-- C7: the merged mapping table keeps exactly one row per duplicated
account key, namely the first row with that key in concatenation
(file-discovery) order. -/
theorem c7_mapping_dedup_keeps_first :
    ∀ (files : List MappingFile) (r1 r2 : MapRow),
      r1 ∈ loadedMappingRows files → r2 ∈ loadedMappingRows files →
      r1.AccountKey = r2.AccountKey →
      (map_df files).countP
          (fun x => decide (x.AccountKey = r1.AccountKey)) = 1 ∧
      (map_df files).find?
          (fun x => decide (x.AccountKey = r1.AccountKey)) =
        (loadedMappingRows files).find?
          (fun x => decide (x.AccountKey = r1.AccountKey)) := by
  intro files r1 r2 h1 _ _
  exact ⟨dedupOn_countP_of_not_seen (fun x => x.AccountKey) r1.AccountKey []
      (loadedMappingRows files) (List.not_mem_nil _) ⟨r1, h1, rfl⟩,
    dedupOn_find_eq (fun x => x.AccountKey) r1.AccountKey []
      (loadedMappingRows files) (List.not_mem_nil _)⟩

/-- C7 witness: two files both mapping account 100 under agreement 5; the
merged table keeps exactly the first ("Rent") row. -/
theorem c7_mapping_dedup_keeps_first_witness :
    (map_df [mapFileA, mapFileB]).countP
        (fun x => decide (x.AccountKey = rowRent.AccountKey)) = 1 ∧
    (map_df [mapFileA, mapFileB]).find?
        (fun x => decide (x.AccountKey = rowRent.AccountKey)) =
      (loadedMappingRows [mapFileA, mapFileB]).find?
        (fun x => decide (x.AccountKey = rowRent.AccountKey)) :=
  c7_mapping_dedup_keeps_first [mapFileA, mapFileB] rowRent rowTax
    (by decide) (by decide) (by decide)

/-- C8 (amended): the run aborts as a soft no-op exactly when the discovered
mapping list OR the discovered budget list is empty; it proceeds past
discovery only when both are non-empty. -/
theorem c8_abort_when_either_list_empty :
    ∀ (mapping_files budget_files : List String),
      (discoveryOutcome mapping_files budget_files = .abortedSoft ↔
        (mapping_files = [] ∨ budget_files = [])) ∧
      (discoveryOutcome mapping_files budget_files = .proceeds ↔
        (mapping_files ≠ [] ∧ budget_files ≠ [])) := by
  intro mf bf
  by_cases hm : mf = [] <;> by_cases hb : bf = [] <;>
    simp [discoveryOutcome, hm, hb]

/-- C8 counterexample: with one mapping file and no budget files the claim
predicts the pipeline proceeds (at least one file was discovered), but the
code aborts because the condition is a disjunction of emptiness tests. -/
theorem c8_counterexample_one_sided_discovery :
    discoveryOutcome ["squaremeter_accounts_mapping_1001.csv"] [] =
      .abortedSoft := by decide

/-- C9 (amended): the HTTP service's budget path duplicates the script's
positional month logic but is NOT functionally equivalent to it: the
service strips then replaces every comma with a period and coerces, so the
raw amount "1.740" parses to 1.74 where the script's European parser gives
1740; and the service's description filter is unanchored, dropping
"Net cash flow", which the script keeps. -/
theorem c9_service_not_equivalent_to_script :
    (∀ cols : List String, api_month_cols cols = month_cols cols) ∧
    parse_european_number (some "1.740") = .ok (some 1740) ∧
    api_clean_amount (some "1.740") = some (87 / 50) ∧
    budgetFilterHit "Net cash flow" = false ∧
    apiFilterHit "Net cash flow" = true := by
  refine ⟨fun cols => rfl, by decide, ?_, by decide, by decide⟩
  have h : api_clean_amount (some "1.740") =
      some ((digitsToNat ['1'] : Rat) +
        (digitsToNat ['7', '4', '0'] : Rat) /
          10 ^ (['7', '4', '0'] : List Char).length) := rfl
  rw [h, show digitsToNat ['1'] = 1 from rfl,
    show digitsToNat ['7', '4', '0'] = 740 from rfl]
  norm_num

/-- C9 counterexample: on the same raw amount string "1.740" the script's
parser and the service's amount cleaning produce different numbers, so the
two paths do not produce the same (…, amount, …) rows. -/
theorem c9_counterexample_amount_divergence :
    parse_european_number (some "1.740") = .ok (some 1740) ∧
    api_clean_amount (some "1.740") = some (87 / 50) ∧
    (87 / 50 : Rat) ≠ 1740 := by
  refine ⟨by decide, ?_, by norm_num⟩
  have h : api_clean_amount (some "1.740") =
      some ((digitsToNat ['1'] : Rat) +
        (digitsToNat ['7', '4', '0'] : Rat) /
          10 ^ (['7', '4', '0'] : List Char).length) := rfl
  rw [h, show digitsToNat ['1'] = 1 from rfl,
    show digitsToNat ['7', '4', '0'] = 740 from rfl]
  norm_num

/-- C10: a retained mapping row whose account-number cell is empty gets
`AccountKey = "nan_" ++ agreement`; all such rows from files with the same
agreement share that key, so after first-wins deduplication exactly one of
them (the earliest in concatenation order) survives. -/
theorem c10_nan_account_key_collision :
    ∀ (files : List MappingFile) (mf : MappingFile)
      (cells : List (Option String)),
      mf ∈ files → cells ∈ mf.rows → cells.getD 0 none = none →
      (∃ c ∈ cells, c.isSome = true) →
      ∃ r : MapRow, loadMappingRow mf.agreement cells = some r ∧
        r.AccountKey = "nan_" ++ mf.agreement ∧
        r ∈ loadedMappingRows files ∧
        (map_df files).countP
            (fun x => decide (x.AccountKey = "nan_" ++ mf.agreement)) = 1 ∧
        (map_df files).find?
            (fun x => decide (x.AccountKey = "nan_" ++ mf.agreement)) =
          (loadedMappingRows files).find?
            (fun x => decide (x.AccountKey = "nan_" ++ mf.agreement)) := by
  intro files mf cells hmf hcells hacc hsome
  have hnotall : ¬(cells.all (fun c => c.isNone) = true) := by
    rcases hsome with ⟨c, hc, hs⟩
    intro hall
    have hn := List.all_eq_true.mp hall c hc
    cases c with
    | none => exact absurd hs (by decide)
    | some v => simp at hn
  have hload : loadMappingRow mf.agreement cells =
      some { account_number := cells.getD 0 none,
             mapping_description := cells.getD 1 none,
             category := cells.getD 2 none,
             sub_category := cells.getD 3 none,
             agreement_number := mf.agreement,
             AccountKey :=
               pyStrCell (cells.getD 0 none) ++ "_" ++ mf.agreement } := by
    rw [loadMappingRow, if_neg hnotall]
  have hkey : pyStrCell (cells.getD 0 none) ++ "_" ++ mf.agreement =
      "nan_" ++ mf.agreement := by
    rw [hacc]
    show ("nan" : String) ++ "_" ++ mf.agreement = "nan_" ++ mf.agreement
    rw [show (("nan" : String) ++ "_") = "nan_" by decide]
  refine ⟨_, hload, hkey, ?_, ?_, ?_⟩
  · exact List.mem_flatMap.mpr ⟨mf, hmf, List.mem_filterMap.mpr
      ⟨cells, hcells, hload⟩⟩
  · exact dedupOn_countP_of_not_seen (fun x => x.AccountKey) _ []
      (loadedMappingRows files) (List.not_mem_nil _)
      ⟨_, List.mem_flatMap.mpr ⟨mf, hmf, List.mem_filterMap.mpr
        ⟨cells, hcells, hload⟩⟩, hkey⟩
  · exact dedupOn_find_eq (fun x => x.AccountKey) _ []
      (loadedMappingRows files) (List.not_mem_nil _)

/-- C10 witness: a file under agreement 7 with two empty-account rows; the
first becomes the unique "nan_7" row of the merged table. -/
theorem c10_nan_account_key_collision_witness :
    ∃ r : MapRow,
      loadMappingRow mapFileNan.agreement [none, some "Misc"] = some r ∧
      r.AccountKey = "nan_" ++ mapFileNan.agreement ∧
      r ∈ loadedMappingRows [mapFileNan] ∧
      (map_df [mapFileNan]).countP
          (fun x => decide (x.AccountKey = "nan_" ++ mapFileNan.agreement)) = 1 ∧
      (map_df [mapFileNan]).find?
          (fun x => decide (x.AccountKey = "nan_" ++ mapFileNan.agreement)) =
        (loadedMappingRows [mapFileNan]).find?
          (fun x => decide (x.AccountKey = "nan_" ++ mapFileNan.agreement)) :=
  c10_nan_account_key_collision [mapFileNan] mapFileNan [none, some "Misc"]
    (by decide) (by decide) (by decide) ⟨some "Misc", by decide, by decide⟩

end EconomicApi
